import Mathlib

/-!
Verification of the AutoAnswer form-discovery/fill engine
(`ChromeExtension/extension/content.js`) against its specification.

The development is a shallow embedding of the content script's pure core:

* string normalisation helpers (`normalizeKey`, `keepPunctLower`, JS
  `String.prototype.trim` / `includes` / `toLowerCase` on ASCII data);
* the answer-payload value model (`JVal`, mirroring the JSON-ish values the
  provider can return, with JS truthiness and `JSON.stringify`);
* the choice-option matcher `selectBy` (lines 347-394 of content.js);
* the document-mutation layer: an element model (`Elem`), primitive mutation
  / notification actions (`Act`), `setElementValue` and `ensureChecked` as
  act-trace producers, and an executor `runActs` parameterised by a fault
  oracle `(Act → Bool)` that models an unexpected exception raised while
  performing a primitive DOM operation (JS exceptions propagate through the
  embedding as `Except.error`, exactly where the source has no try/catch);
* the field index (`FieldIndex`) consumed by `fillAnswers`, and `fillAnswers`
  itself over the three accepted payload shapes;
* the `captureAndFill` message-handler strategy cascade, abstracted over the
  outcome each strategy's inner DOM/provider interaction would produce, with
  the try/catch topology taken verbatim from the source.

Modelling conventions: DOM nodes are `Elem` records carrying the attributes
the script reads; node identity is the `eid` field (distinct nodes have
distinct `eid`s); `closest(...)`/`parentElement` relationships the script
consults are snapshot fields (`labelWrapInner`, `parentInner`,
`radiogroupId`, `formId`); `document.querySelector(sel)` for payload-supplied
CSS selectors is the document's `selMap` oracle.  Strings are treated as
ASCII character lists; the JS regexes `\s+` and `[^a-z0-9]+` and
`toLowerCase` are reproduced character-wise.
-/

/-- JS whitespace (the characters of `\s` relevant to ASCII text). -/
def isSpaceJS (c : Char) : Bool :=
  c == ' ' || c == '\t' || c == '\n' || c == '\r' || c == '\x0b' || c == '\x0c'

/-- Drop leading and trailing JS whitespace from a character list. -/
def trimList (l : List Char) : List Char :=
  ((l.dropWhile isSpaceJS).reverse.dropWhile isSpaceJS).reverse

/-- JS `String.prototype.trim` (ASCII fragment). -/
def jsTrim (s : String) : String := ⟨trimList s.data⟩

/-- Collapse every run of whitespace characters to a single space
(the JS `replace(/\s+/g, " ")`). -/
def collapseWs : List Char → List Char
  | [] => []
  | [c] => if isSpaceJS c then [' '] else [c]
  | c :: d :: rest =>
    if isSpaceJS c then
      (if isSpaceJS d then collapseWs (d :: rest) else ' ' :: collapseWs (d :: rest))
    else c :: collapseWs (d :: rest)

/-- JS `toLowerCase` on ASCII data. -/
def lowerStr (s : String) : String := ⟨s.data.map Char.toLower⟩

/-- content.js `keepPunctLower` (inside `selectBy`):
`String(s).toLowerCase().replace(/\s+/g, " ").trim()`. -/
def keepPunctLower (s : String) : String :=
  jsTrim ⟨collapseWs (lowerStr s).data⟩

/-- Lowercase ASCII letter or digit (`[a-z0-9]` after lowering). -/
def isAlnumLower (c : Char) : Bool :=
  decide ('a' ≤ c ∧ c ≤ 'z') || decide ('0' ≤ c ∧ c ≤ '9')

/-- content.js `normalizeKey`: lowercase, collapse every `[^a-z0-9]+` run to a
single space, collapse whitespace, trim.  (The falsy-input guard `if (!s)
return ""` is handled at call sites that may pass a missing value.) -/
def normalizeKey (s : String) : String :=
  jsTrim ⟨collapseWs (((lowerStr s).data.map (fun c => if isAlnumLower c then c else ' ')))⟩

/-- `a` is a leading block of `b` (character-wise). -/
def chunkLe : List Char → List Char → Bool
  | [], _ => true
  | _ :: _, [] => false
  | a :: as, b :: bs => a == b && chunkLe as bs

/-- `needle` occurs contiguously inside `hay` (character-wise). -/
def hasChunk (needle : List Char) : List Char → Bool
  | [] => chunkLe needle []
  | c :: rest => chunkLe needle (c :: rest) || hasChunk needle rest

/-- JS `hay.includes(needle)` for strings. -/
def strIncludes (hay needle : String) : Bool := hasChunk needle.data hay.data

/-- JS `/^[A-Z]/.test(s)`. -/
def startsUpper (s : String) : Bool :=
  match s.data with
  | [] => false
  | c :: _ => decide ('A' ≤ c ∧ c ≤ 'Z')

/-- A JSON-ish JS value, as the answer payload can contain.
`nul` stands for JS `null`. -/
inductive JVal where
  | nul : JVal
  | str : String → JVal
  | arr : List JVal → JVal
  | obj : List (String × JVal) → JVal

/-- JS truthiness on `JVal` (objects and arrays are truthy, `null` and the
empty string are falsy). -/
def jtruthy : JVal → Bool
  | .nul => false
  | .str s => s != ""
  | .arr _ => true
  | .obj _ => true

/-- JS property read `v[k]` (missing property = `none` = `undefined`). -/
def jget : JVal → String → Option JVal
  | .obj fs, k => (fs.find? (fun p => p.1 == k)).map (·.2)
  | _, _ => none

/-- JS `a || b` on optional values (`none` models `undefined`). -/
def jorv (a b : Option JVal) : Option JVal :=
  match a with
  | some v => if jtruthy v then some v else b
  | none => b

/-- JS `a ?? b` (move on exactly when `a` is `null`/`undefined`). -/
def jcoalesce (a b : Option JVal) : Option JVal :=
  match a with
  | some .nul => b
  | some v => some v
  | none => b

/-- `typeof v === "object" && v` — the guard content.js applies to
`answers.choices` / `answers.fields` before iterating them. -/
def jIsObjLike : JVal → Bool
  | .obj _ => true
  | .arr _ => true
  | _ => false

/-- `Object.entries` of an object-like value (arrays enumerate index keys,
as in JS). -/
def jentriesOf : JVal → List (String × JVal)
  | .obj fs => fs
  | .arr xs => (xs.enum.map (fun p => (toString p.1, p.2)))
  | _ => []

/-- Minimal JSON string escaping (quote, backslash, newline); sufficient and
faithful for the character data exercised here. -/
def jstrEsc (s : String) : String :=
  ⟨s.data.foldr (fun c acc =>
      if c = '"' then '\\' :: '"' :: acc
      else if c = '\\' then '\\' :: '\\' :: acc
      else if c = '\n' then '\\' :: 'n' :: acc
      else c :: acc) []⟩

/-- `JSON.stringify`, fuel-bounded so that the recursion through the nested
lists is structural (the bound far exceeds any payload depth; JS engines
impose a recursion bound of their own). -/
def jstringifyFuel : Nat → JVal → String
  | 0, _ => ""
  | _ + 1, .nul => "null"
  | _ + 1, .str s => "\"" ++ jstrEsc s ++ "\""
  | n + 1, .arr xs =>
    "[" ++ String.intercalate "," (xs.map (jstringifyFuel n)) ++ "]"
  | n + 1, .obj fs =>
    "\x7b" ++
      String.intercalate ","
        (fs.map (fun p => "\"" ++ jstrEsc p.1 ++ "\":" ++ jstringifyFuel n p.2)) ++
      "\x7d"

/-- `JSON.stringify` at the fixed fuel. -/
def jstringify (v : JVal) : String := jstringifyFuel 256 v

/-- JS string coercion `String(v)` (arrays join their members with commas,
objects print as `[object Object]`), fuel-bounded like `jstringifyFuel`. -/
def jcoerceFuel : Nat → JVal → String
  | 0, _ => ""
  | _ + 1, .nul => "null"
  | _ + 1, .str s => s
  | n + 1, .arr xs =>
    String.intercalate "," (xs.map (fun x =>
      match x with
      | .nul => ""
      | _ => jcoerceFuel n x))
  | _ + 1, .obj _ => "[object Object]"

/-- JS string coercion `String(v)` at the fixed fuel. -/
def jStringCoerce (v : JVal) : String := jcoerceFuel 256 v

/-- `normalizeKey(x)` where `x` is a possibly-missing JS value: the source's
`if (!s) return ""` guard, then coercion to string, then normalisation. -/
def jnormalizeKey (v : Option JVal) : String :=
  match v with
  | none => ""
  | some x => if jtruthy x then normalizeKey (jStringCoerce x) else ""

/-- One choice option as `selectBy` sees it: the generated identifier
(`o.id`), the resolved label (`o.label`), the surrounding text
(`o.el.closest('label')?.innerText || o.el.parentElement?.innerText || ''`,
not yet trimmed), and the element's node identity. -/
structure SOpt where
  oid : String
  label : String
  around : String
  eid : Nat
deriving DecidableEq

/-- The 7-tier fuzzy score of one option against the value
(content.js lines 383-390).  `exact`, `rawLower`, `norm` are the value's
trimmed / lowercased / fully-normalised forms, precomputed by `selectBy`. -/
def scoreOf (o : SOpt) (exact rawLower norm : String) : Int :=
  if keepPunctLower o.label = rawLower then 90
  else if keepPunctLower o.label ≠ "" ∧
      (strIncludes (keepPunctLower o.label) rawLower ∨
       strIncludes rawLower (keepPunctLower o.label)) then 80
  else if jsTrim o.around = exact then 78
  else if keepPunctLower (jsTrim o.around) = rawLower then 75
  else if normalizeKey o.label = norm then 60
  else if normalizeKey o.label ≠ "" ∧
      (strIncludes (normalizeKey o.label) norm ∨
       strIncludes norm (normalizeKey o.label)) then 50
  else if normalizeKey (jsTrim o.around) ≠ "" ∧
      (strIncludes (normalizeKey (jsTrim o.around)) norm ∨
       strIncludes norm (normalizeKey (jsTrim o.around))) then 40
  else 0

/-- The scoring loop of `selectBy` (content.js lines 365-394): per option,
first the exact-identifier and exact-label short-circuits, then the tier
score, keeping the strictly best (`best` starts `null`, `bestScore` starts
`-1`).  `rawStr` records whether the raw value is a string, since the JS
strict equality `o.id === val` can only succeed then. -/
def selLoop (val : String) (rawStr : Bool) : List SOpt → Option SOpt → Int → Option SOpt
  | [], best, _ => best
  | o :: rest, best, bestScore =>
    if rawStr = true ∧ o.oid = val then some o
    else if jsTrim o.label = jsTrim val then some o
    else if scoreOf o (jsTrim val) (keepPunctLower val) (normalizeKey val) > bestScore then
      selLoop val rawStr rest (some o)
        (scoreOf o (jsTrim val) (keepPunctLower val) (normalizeKey val))
    else selLoop val rawStr rest best bestScore

/-- The options whose labels equal the value after lowercasing and
whitespace-collapsing (punctuation preserved) — the candidate set of the
case-sensitive tie-break (content.js line 357). -/
def csCandidates (opts : List SOpt) (val : String) : List SOpt :=
  opts.filter (fun o => keepPunctLower o.label == keepPunctLower val)

/-- `selectBy` (content.js lines 347-394) on a non-null value already coerced
to the string `val`.  The case-sensitive tie-break (lines 356-363) runs
first; when it does not produce an option, the scoring loop with its
exact-id/exact-label short-circuits runs. -/
def selectByCore (opts : List SOpt) (val : String) (rawStr : Bool) : Option SOpt :=
  if (csCandidates opts val).length ≥ 2 then
    match (csCandidates opts val).find? (fun o => jsTrim o.label == jsTrim val) with
    | some o => some o
    | none =>
      match (csCandidates opts val).find? (fun o => startsUpper (jsTrim o.label)) with
      | some o => some o
      | none => selLoop val rawStr opts none (-1)
  else selLoop val rawStr opts none (-1)

/-- `selectBy` on a string value (the common case; `rawStr = true`). -/
def selectByStr (opts : List SOpt) (val : String) : Option SOpt :=
  selectByCore opts val true

/-- A DOM node as the script reads it.  `eid` is node identity; `tag` is the
lowercased tag name; option-valued fields are attributes that may be absent;
`labelWrapInner` / `parentInner` are the `innerText` of the enclosing
`<label>` wrapper / the parent element (when those exist); `radiogroupId` /
`formId` identify the innermost enclosing `[role='radiogroup']` / `<form>`
container, when any. -/
structure Elem where
  eid : Nat
  tag : String
  typeAttr : Option String
  role : Option String
  nameAttr : Option String
  contenteditable : Bool
  checked : Bool
  ariaChecked : Option String
  value : String
  textContent : String
  labelWrapInner : Option String
  parentInner : Option String
  radiogroupId : Option Nat
  formId : Option Nat
deriving DecidableEq

/-- A primitive DOM mutation / notification performed by the script. -/
inductive Act where
  | setChecked : Nat → Bool → Act
  | setAria : Nat → String → Act
  | setValue : Nat → String → Act
  | setText : Nat → String → Act
  | dispatch : Nat → String → Act
  | submit : Nat → Act
deriving DecidableEq

/-- The document: node list in document order, plus the resolution oracle
for payload-supplied CSS selectors (`document.querySelector`). -/
structure Doc where
  elems : List Elem
  selMap : List (String × Nat)
deriving DecidableEq

/-- Effect of one primitive action on one node (state-changing actions
update the node they target; notifications change no state). -/
def applyActElem (e : Elem) : Act → Elem
  | .setChecked i b => if e.eid = i then { e with checked := b } else e
  | .setAria i s => if e.eid = i then { e with ariaChecked := some s } else e
  | .setValue i s => if e.eid = i then { e with value := s } else e
  | .setText i s => if e.eid = i then { e with textContent := s } else e
  | .dispatch _ _ => e
  | .submit _ => e

/-- Effect of one primitive action on the document. -/
def applyActDoc (d : Doc) (a : Act) : Doc :=
  { d with elems := d.elems.map (fun e => applyActElem e a) }

/-- Apply a list of actions in order (the fault-free semantics). -/
def applyActsDoc (d : Doc) : List Act → Doc
  | [] => d
  | a :: as => applyActsDoc (applyActDoc d a) as

/-- Run a list of actions under a fault oracle: a faulting primitive models
an unexpected JS exception at that point, and — since none of the mutation
code in content.js catches — the exception propagates (`Except.error`),
leaving the earlier actions applied. -/
def runActs (f : Act → Bool) (d : Doc) : List Act → Except Unit Doc
  | [] => .ok d
  | a :: as => if f a then .error () else runActs f (applyActDoc d a) as

/-- The all-healthy fault oracle (no primitive throws). -/
def noFaults : Act → Bool := fun _ => false

/-- Find a node by identity. -/
def findElem (d : Doc) (i : Nat) : Option Elem :=
  d.elems.find? (fun e => e.eid == i)

/-- The string actually written by `setElementValue`:
`typeof value === "string" ? value : JSON.stringify(value)`, where a missing
value (`undefined`, from a payload item with no answer key) stringifies to
`undefined` and the DOM value setter coerces it to the text `undefined`. -/
def valueToStr : Option JVal → String
  | some (.str s) => s
  | some v => jstringify v
  | none => "undefined"

/-- `setElementValue(el, value, options)` (content.js lines 193-206) as its
trace of primitive actions: inputs/textareas get their value set, an `input`
notification, and a `change` notification unless suppressed; contenteditable
nodes get their text set and an `input` notification only; anything else is
untouched. -/
def setElementValueActs (el : Elem) (value : Option JVal) (sup : Bool) : List Act :=
  if lowerStr el.tag = "textarea" ∨ lowerStr el.tag = "input" then
    [.setValue el.eid (valueToStr value), .dispatch el.eid "input"] ++
      (if sup then [] else [.dispatch el.eid "change"])
  else if el.contenteditable then
    [.setText el.eid (valueToStr value), .dispatch el.eid "input"]
  else []

/-- The clearing action applied to one sibling during exclusive selection:
role-carrying nodes get `aria-checked="false"`, native ones `checked=false`
(content.js lines 216-221). -/
def clearActOf (e : Elem) : Act :=
  if e.role.isSome then .setAria e.eid "false" else .setChecked e.eid false

/-- `document.querySelectorAll("input[type='radio'][name='n']")` over the
model document (document order). -/
def qsaRadioName (d : Doc) (n : String) : List Elem :=
  d.elems.filter (fun x =>
    x.tag == "input" && x.typeAttr == some "radio" && x.nameAttr == some n)

/-- `el.closest("[role='radiogroup']")?.querySelectorAll("[role='radio']")`
over the model document: the `role='radio'` descendants of the enclosing
radiogroup container, when the element has one. -/
def qsaRoleRadio (d : Doc) (g : Nat) : List Elem :=
  d.elems.filter (fun x => x.role == some "radio" && x.radiogroupId == some g)

/-- The truthy `name` attribute, if any (`el.getAttribute('name')` followed
by the JS truthiness test — an empty name is falsy). -/
def nameTruthy (el : Elem) : Option String :=
  match el.nameAttr with
  | some n => if n = "" then none else some n
  | none => none

/-- The sibling set `ensureChecked` clears (content.js line 214): same-name
native radios when the element has a truthy name, otherwise the role-radios
of the enclosing radiogroup; `none` when neither exists (then no clearing
happens at all). -/
def radioGroupNodes (d : Doc) (el : Elem) : Option (List Elem) :=
  match nameTruthy el with
  | some n => some (qsaRadioName d n)
  | none =>
    match el.radiogroupId with
    | some g => some (qsaRoleRadio d g)
    | none => none

/-- The native-control branch of `ensureChecked` (content.js lines 230-243),
as its action trace: set checked, dispatch `input`, then the source's
duplicated conditional deciding the `change` dispatch.  `willChange` is the
value of `!el.checked` read just before the mutation. -/
def nativeBranchActs (eid : Nat) (willChange sup : Bool) : List Act :=
  [.setChecked eid true, .dispatch eid "input"] ++
    (if sup then []
     else if willChange then (if sup then [] else [.dispatch eid "change"])
     else [.dispatch eid "change"])

/-- The `kind` local of `ensureChecked` (content.js line 210): the role when
it is `radio`/`checkbox`, otherwise the `type` attribute, lowercased. -/
def ensureCheckedKind (el : Elem) : String :=
  if lowerStr (el.role.getD "") = "radio" ∨ lowerStr (el.role.getD "") = "checkbox"
  then lowerStr (el.role.getD "") else lowerStr (el.typeAttr.getD "")

/-- The sibling-clearing pass of `ensureChecked` (content.js lines 212-222):
clear every node of the sibling set other than the target itself (`node !==
el`); nothing is cleared when no sibling set exists. -/
def clearsOf (d : Doc) (el : Elem) : List Act :=
  match radioGroupNodes d el with
  | some nodes => (nodes.filter (fun x => x.eid != el.eid)).map clearActOf
  | none => []

/-- `ensureChecked(el, isRadio, options)` (content.js lines 208-244) as its
action trace over the current document: the sibling-clearing pass (when the
kind is radio or `isRadio` is set), then the role-based or native selection
of the target. -/
def ensureCheckedActs (d : Doc) (el : Elem) (isRadio sup : Bool) : List Act :=
  (if ensureCheckedKind el = "radio" ∨ isRadio = true then clearsOf d el else []) ++
  (if el.role.isSome then
    .setAria el.eid "true" ::
      (if sup then [] else [.dispatch el.eid "click", .dispatch el.eid "change"])
  else nativeBranchActs el.eid (!el.checked) sup)

/-- One option record of an indexed choice group (`buildFieldIndex` stores
`{ el, label, id }`; `el` is the node identity here). -/
structure GOpt where
  eid : Nat
  oid : String
  label : String
deriving DecidableEq

/-- One indexed choice group: `byGroup` value `{ type, question, options }`. -/
structure ChoiceGroup where
  gtype : String
  question : String
  options : List GOpt
deriving DecidableEq

/-- The reverse-lookup index built by `buildFieldIndex` (content.js lines
256-291), taken as input by `fillAnswers`.  Keys of the by-label/name/htmlId/
placeholder maps are already normalised (the builder normalises them);
association lists model the JS `Map`s (first binding wins). -/
structure FieldIndex where
  byId : List (String × Nat)
  byLabel : List (String × Nat)
  byName : List (String × Nat)
  byHtmlId : List (String × Nat)
  byPlaceholder : List (String × Nat)
  byGroup : List (String × ChoiceGroup)
  byGroupQuestion : List (String × String)
deriving DecidableEq

/-- `Map.get` over an association list. -/
def alookup {α : Type} (l : List (String × α)) (k : String) : Option α :=
  (l.find? (fun p => p.1 == k)).map (·.2)

/-- The group lookup of the choices branch (content.js lines 341-345):
by group key, then by normalised question. -/
def groupLookup (idx : FieldIndex) (gkey : String) : Option ChoiceGroup :=
  match alookup idx.byGroup gkey with
  | some g => some g
  | none =>
    match alookup idx.byGroupQuestion (normalizeKey gkey) with
    | some altId => alookup idx.byGroup altId
    | none => none

/-- The `around` text `selectBy` reads from an option's element:
`(labelNode?.innerText || o.el.parentElement?.innerText || '')` (without the
trailing trim, which `selectBy` applies itself). -/
def aroundRawOf (d : Doc) (i : Nat) : String :=
  match findElem d i with
  | some e => if e.labelWrapInner.getD "" ≠ "" then e.labelWrapInner.getD ""
              else e.parentInner.getD ""
  | none => ""

/-- The option views `selectBy` scores, built from the group's stored
options and the live document. -/
def mkSOpts (d : Doc) (g : ChoiceGroup) : List SOpt :=
  g.options.map (fun o => ⟨o.oid, o.label, aroundRawOf d o.eid, o.eid⟩)

/-- `selectBy(val)` on an arbitrary payload value: `null` short-circuits to
no option; strings run the matcher as-is; other values are coerced to
strings first (and then the strict `o.id === val` test cannot succeed). -/
def selectByVal (d : Doc) (g : ChoiceGroup) : JVal → Option SOpt
  | .nul => none
  | .str s => selectByCore (mkSOpts d g) s true
  | v => selectByCore (mkSOpts d g) (jStringCoerce v) false

/-- The running state of one `fillAnswers` call: the (mutating) document,
`filledCount`, and the touched-forms set in insertion order. -/
structure FillSt where
  doc : Doc
  filled : Nat
  touched : List Nat
deriving DecidableEq

/-- `touchedForms.add(form)` for the form containing the element, if any. -/
def touch (l : List Nat) : Option Nat → List Nat
  | none => l
  | some fid => if fid ∈ l then l else l ++ [fid]

/-- `applyTo(el, value)` for a non-null element (content.js lines 299-306):
run `setElementValue`, bump the counter, record the containing form.  An
exception from a primitive propagates — there is no catch. -/
def applyToE (f : Act → Bool) (skip : Bool) (st : FillSt) (eid : Nat)
    (value : Option JVal) : Except Unit FillSt :=
  match findElem st.doc eid with
  | none => .ok st
  | some el =>
    match runActs f st.doc (setElementValueActs el value skip) with
    | .error e => .error e
    | .ok d => .ok ⟨d, st.filled + 1, touch st.touched el.formId⟩

/-- The element-resolution chain of the ordered-list payload shape
(content.js lines 313-335): generated id (`item.id || item.fieldId`), then
`item.selector` via `document.querySelector`, then normalised label, name,
and htmlId (`item.htmlId || item.idAttr`); each lookup that misses falls
through to the next step.  No placeholder lookup exists on this path. -/
def resolveItemChain (d : Doc) (idx : FieldIndex) (item : JVal) : Option Nat :=
  match (if (jorv (jget item "id") (jget item "fieldId")).elim false jtruthy then
          match jorv (jget item "id") (jget item "fieldId") with
          | some (.str s) => alookup idx.byId s
          | _ => none
        else none) with
  | some e => some e
  | none =>
    match (if (jget item "selector").elim false jtruthy then
            match jget item "selector" with
            | some (.str s) => alookup d.selMap s
            | _ => none
          else none) with
    | some e => some e
    | none =>
      match (if jnormalizeKey (jget item "label") ≠ "" then
              alookup idx.byLabel (jnormalizeKey (jget item "label"))
            else none) with
      | some e => some e
      | none =>
        match (if jnormalizeKey (jget item "name") ≠ "" then
                alookup idx.byName (jnormalizeKey (jget item "name"))
              else none) with
        | some e => some e
        | none =>
          if jnormalizeKey (jorv (jget item "htmlId") (jget item "idAttr")) ≠ "" then
            alookup idx.byHtmlId (jnormalizeKey (jorv (jget item "htmlId") (jget item "idAttr")))
          else none

/-- The key-resolution chain of the structured-object and legacy flat-map
shapes (content.js lines 422 and 428): id, then normalised label, name,
htmlId, placeholder — first hit wins. -/
def resolveKey (idx : FieldIndex) (key : String) : Option Nat :=
  match alookup idx.byId key with
  | some e => some e
  | none =>
    match alookup idx.byLabel (normalizeKey key) with
    | some e => some e
    | none =>
      match alookup idx.byName (normalizeKey key) with
      | some e => some e
      | none =>
        match alookup idx.byHtmlId (normalizeKey key) with
        | some e => some e
        | none => alookup idx.byPlaceholder (normalizeKey key)

/-- `item.answer ?? item.value ?? item.text`. -/
def itemValue (item : JVal) : Option JVal :=
  jcoalesce (jcoalesce (jget item "answer") (jget item "value")) (jget item "text")

/-- The ordered-list branch of `fillAnswers` (content.js lines 309-336):
skip falsy items, resolve through `resolveItemChain`, apply on a hit. -/
def procItems (f : Act → Bool) (skip : Bool) (idx : FieldIndex) :
    FillSt → List JVal → Except Unit FillSt
  | st, [] => .ok st
  | st, item :: rest =>
    if jtruthy item then
      match resolveItemChain st.doc idx item with
      | some eid =>
        match applyToE f skip st eid (itemValue item) with
        | .error e => .error e
        | .ok st2 => procItems f skip idx st2 rest
      | none => procItems f skip idx st rest
    else procItems f skip idx st rest

/-- Application of one matched choice option (content.js lines 399-405 /
409-414): `ensureChecked`, bump the counter, record the form. -/
def applyChoice (f : Act → Bool) (skip isRadio : Bool) (st : FillSt) (eid : Nat) :
    Except Unit FillSt :=
  match findElem st.doc eid with
  | none => .ok st
  | some el =>
    match runActs f st.doc (ensureCheckedActs st.doc el isRadio skip) with
    | .error e => .error e
    | .ok d => .ok ⟨d, st.filled + 1, touch st.touched el.formId⟩

/-- The multi-select loop (`value.forEach` on an array answer, content.js
lines 397-406): each value is matched independently; a matched option is
checked non-exclusively; misses are dropped; an exception propagates (no
catch anywhere in `fillAnswers`). -/
def procChoiceVals (f : Act → Bool) (skip : Bool) (g : ChoiceGroup) :
    FillSt → List JVal → Except Unit FillSt
  | st, [] => .ok st
  | st, v :: rest =>
    match selectByVal st.doc g v with
    | some o =>
      match applyChoice f skip false st o.eid with
      | .error e => .error e
      | .ok st2 => procChoiceVals f skip g st2 rest
    | none => procChoiceVals f skip g st rest

/-- The single-select application (string answer, content.js lines 407-415):
match once, check exclusively. -/
def procChoiceSingle (f : Act → Bool) (skip : Bool) (g : ChoiceGroup) (st : FillSt)
    (s : String) : Except Unit FillSt :=
  match selectByVal st.doc g (.str s) with
  | some o => applyChoice f skip true st o.eid
  | none => .ok st

/-- The choices branch of `fillAnswers` (content.js lines 339-418): for each
entry of `answers.choices`, resolve the group, then dispatch on the value's
shape (array = multi-select, string = single-select, otherwise ignored). -/
def procChoiceEntries (f : Act → Bool) (skip : Bool) (idx : FieldIndex) :
    FillSt → List (String × JVal) → Except Unit FillSt
  | st, [] => .ok st
  | st, (gkey, value) :: rest =>
    match groupLookup idx gkey with
    | none => procChoiceEntries f skip idx st rest
    | some g =>
      match value with
      | .arr vs =>
        match procChoiceVals f skip g st vs with
        | .error e => .error e
        | .ok st2 => procChoiceEntries f skip idx st2 rest
      | .str s =>
        match procChoiceSingle f skip g st s with
        | .error e => .error e
        | .ok st2 => procChoiceEntries f skip idx st2 rest
      | _ => procChoiceEntries f skip idx st rest

/-- The `fields`/flat-map loop (content.js lines 421-430): resolve each key
through `resolveKey`, apply on a hit. -/
def procFlat (f : Act → Bool) (skip : Bool) (idx : FieldIndex) :
    FillSt → List (String × JVal) → Except Unit FillSt
  | st, [] => .ok st
  | st, (key, value) :: rest =>
    match resolveKey idx key with
    | some eid =>
      match applyToE f skip st eid (some value) with
      | .error e => .error e
      | .ok st2 => procFlat f skip idx st2 rest
    | none => procFlat f skip idx st rest

/-- The aggregate result `{ filled, submitted }`. -/
structure FillResult where
  filled : Nat
  submitted : Bool
deriving DecidableEq

/-- The submission epilogue of `fillAnswers` (content.js lines 434-449):
when auto-submit is on, suppression is off, and some form was touched, click
the first touched form's submit control inside a try/catch (a fault leaves
`submitted` false); otherwise `submitted` is false. -/
def finishFill (f : Act → Bool) (autoSub skip : Bool) (st : FillSt) :
    FillResult × Doc :=
  if autoSub = true ∧ skip = false then
    match st.touched with
    | [] => (⟨st.filled, false⟩, st.doc)
    | fid :: _ => if f (.submit fid) then (⟨st.filled, false⟩, st.doc)
                  else (⟨st.filled, true⟩, st.doc)
  else (⟨st.filled, false⟩, st.doc)

/-- `fillAnswers(answers, options)` (content.js lines 293-452) under a fault
oracle `f`, an `autoSubmit` setting, and `options.skipSubmit`: dispatch on
the payload shape (array / object with optional `choices` and `fields` /
anything else), then the submission epilogue.  The result is the
`{ filled, submitted }` object along with the final document; `Except.error`
is an uncaught exception escaping the whole call. -/
def fillAnswers (f : Act → Bool) (autoSub skip : Bool) (d : Doc)
    (idx : FieldIndex) (answers : JVal) : Except Unit (FillResult × Doc) :=
  if jtruthy answers then
    match answers with
    | .arr items =>
      match procItems f skip idx ⟨d, 0, []⟩ items with
      | .error e => .error e
      | .ok st => .ok (finishFill f autoSub skip st)
    | .obj fs =>
      match (match jget (.obj fs) "choices" with
             | some cv => if jIsObjLike cv then procChoiceEntries f skip idx ⟨d, 0, []⟩ (jentriesOf cv)
                          else .ok ⟨d, 0, []⟩
             | none => .ok ⟨d, 0, []⟩) with
      | .error e => .error e
      | .ok st1 =>
        match (match jget (.obj fs) "fields" with
               | some fv => if jIsObjLike fv then procFlat f skip idx st1 (jentriesOf fv)
                            else procFlat f skip idx st1 fs
               | none => procFlat f skip idx st1 fs) with
        | .error e => .error e
        | .ok st2 => .ok (finishFill f autoSub skip st2)
    | _ => .ok (finishFill f autoSub skip ⟨d, 0, []⟩)
  else .ok (⟨0, false⟩, d)

/-- The outcome the inner DOM/provider interaction of one strategy would
produce on this trigger: it succeeds (fills something / finds a focused
field), it is not applicable (no selection / no groups / no focused field /
nothing filled), or the external provider rejects the request (the source
then throws `new Error(...)`). -/
inductive POut where
  | success : POut
  | notApplicable : POut
  | reject : POut
deriving DecidableEq

/-- The body of `fillSelectionChoicesIfAny` before its try/catch (content.js
lines 520-584): success reports `ok: true`, inapplicability `ok: false`, a
provider rejection throws. -/
def selectionAttempt : POut → Except String Bool
  | .success => .ok true
  | .notApplicable => .ok false
  | .reject => .error "Error: AI selection request failed"

/-- The body of `fillViewportChoicesIfAny` before its try/catch (content.js
lines 590-623). -/
def viewportAttempt : POut → Except String Bool
  | .success => .ok true
  | .notApplicable => .ok false
  | .reject => .error "Error: AI viewport selection request failed"

/-- The `try { ... } catch (_) { return { ok: false }; }` wrapper both the
selection and viewport strategies carry: any exception becomes a plain
not-applicable result. -/
def tryToFalse (x : Except String Bool) : Except String Bool :=
  match x with
  | .ok b => .ok b
  | .error _ => .ok false

/-- `fillSelectionChoicesIfAny` (content.js lines 520-585): body plus
catch-all wrapper. -/
def fillSelectionChoicesIfAnyR (o : POut) : Except String Bool :=
  tryToFalse (selectionAttempt o)

/-- `fillViewportChoicesIfAny` (content.js lines 590-624): body plus
catch-all wrapper. -/
def fillViewportChoicesIfAnyR (o : POut) : Except String Bool :=
  tryToFalse (viewportAttempt o)

/-- `fillFocusedFieldIfAny` (content.js lines 491-515): NO try/catch — a
missing focused field returns `ok: false`, but a provider rejection throws
and the exception escapes to the caller. -/
def fillFocusedFieldIfAnyR : POut → Except String Bool
  | .success => .ok true
  | .notApplicable => .ok false
  | .reject => .error "Error: AI focused request failed"

/-- `captureAndFill` (content.js lines 459-486), outcome-abstracted: a
provider rejection throws; otherwise the full-page fill runs and reports its
`{ filled, submitted }` result (at least one field on success, none when
nothing matched). -/
def captureAndFillR : POut → Except String FillResult
  | .success => .ok ⟨1, false⟩
  | .notApplicable => .ok ⟨0, false⟩
  | .reject => .error "Error: AI request failed"

/-- The message handler's reply (`sendResponse` payload). -/
inductive Resp where
  | ok : FillResult → Resp
  | err : String → Resp
deriving DecidableEq

/-- The `captureAndFill` message handler (content.js lines 627-652): the four
strategies in fixed order — selection-scoped, viewport-scoped, focus-scoped,
full-page — inside one top-level try/catch; the first success replies
`{ filled: 1, submitted: false }` (or the full-page result); any escaped
exception replies `{ ok: false, error }`. -/
def onCaptureAndFillMessage (o1 o2 o3 o4 : POut) : Resp :=
  match (match fillSelectionChoicesIfAnyR o1 with
         | .error e => (.error e : Except String FillResult)
         | .ok true => .ok (⟨1, false⟩ : FillResult)
         | .ok false =>
           match fillViewportChoicesIfAnyR o2 with
           | .error e => (.error e : Except String FillResult)
           | .ok true => .ok (⟨1, false⟩ : FillResult)
           | .ok false =>
             match fillFocusedFieldIfAnyR o3 with
             | .error e => (.error e : Except String FillResult)
             | .ok true => .ok (⟨1, false⟩ : FillResult)
             | .ok false => captureAndFillR o4) with
  | .ok r => Resp.ok r
  | .error e => Resp.err e

/-- Modelled from the spec (design note on the checked-state mutator): the
observable contract of the native-control branch — set the checked state,
always notify `input`, and notify `change` if and only if suppression is not
requested.  Written from the specification's words, to be compared with the
source-derived `nativeBranchActs`. -/
def specNativeCheckActs (eid : Nat) (sup : Bool) : List Act :=
  [.setChecked eid true, .dispatch eid "input"] ++
    (if sup then [] else [.dispatch eid "change"])

/-- `filled` component of a fill outcome (`none` when an exception escaped). -/
def resFilled (r : Except Unit (FillResult × Doc)) : Option Nat :=
  match r with
  | .ok (fr, _) => some fr.filled
  | .error _ => none

/-- `submitted` component of a fill outcome. -/
def resSubmitted (r : Except Unit (FillResult × Doc)) : Option Bool :=
  match r with
  | .ok (fr, _) => some fr.submitted
  | .error _ => none

/-- Number of checked nodes in the final document of a fill outcome. -/
def resCheckedCount (r : Except Unit (FillResult × Doc)) : Option Nat :=
  match r with
  | .ok (_, d) => some ((d.elems.filter (fun e => e.checked)).length)
  | .error _ => none

/-- Value of node `i` in the final document of a fill outcome. -/
def resValueOf (r : Except Unit (FillResult × Doc)) (i : Nat) : Option String :=
  match r with
  | .ok (_, d) => (findElem d i).map (fun e => e.value)
  | .error _ => none

/-- Checked state of node `i` in the final document of a fill outcome. -/
def resCheckedOf (r : Except Unit (FillResult × Doc)) (i : Nat) : Option Bool :=
  match r with
  | .ok (_, d) => (findElem d i).map (fun e => e.checked)
  | .error _ => none

/-- Every resolution the given payload would trigger in `fillAnswers` misses
the index: array items fail `resolveItemChain`, choices keys fail
`groupLookup`, and `fields`/flat keys fail `resolveKey`. -/
def answersMissAll (d : Doc) (idx : FieldIndex) : JVal → Bool
  | .arr items => items.all (fun it => (resolveItemChain d idx it).isNone)
  | .obj fs =>
    (match jget (.obj fs) "choices" with
     | some cv => if jIsObjLike cv then (jentriesOf cv).all (fun p => (groupLookup idx p.1).isNone)
                  else true
     | none => true) &&
    (match jget (.obj fs) "fields" with
     | some fv => if jIsObjLike fv then (jentriesOf fv).all (fun p => (resolveKey idx p.1).isNone)
                  else fs.all (fun p => (resolveKey idx p.1).isNone)
     | none => fs.all (fun p => (resolveKey idx p.1).isNone))
  | _ => true

/-- Concrete scenario: two native radio inputs with no `name` attribute and
no enclosing `role='radiogroup'`, indexed as one radio group (their group key
came from a shared heading, as `collectSchema` produces for unnamed radios);
the first is already checked. -/
def radio1 : Elem := ⟨1, "input", some "radio", none, none, false, true, none, "", "", none, none, none, none⟩

/-- Second unnamed radio of the group, initially unchecked. -/
def radio2 : Elem := ⟨2, "input", some "radio", none, none, false, false, none, "", "", none, none, none, none⟩

/-- The document of the unnamed-radio scenario. -/
def radioDoc : Doc := ⟨[radio1, radio2], []⟩

/-- The index of the unnamed-radio scenario: one radio group holding both. -/
def radioIdx : FieldIndex :=
  ⟨[], [], [], [], [], [("g", ⟨"radio", "Q", [⟨1, "o1", "Red"⟩, ⟨2, "o2", "Blue"⟩]⟩)], []⟩

/-- The answer payload selecting the second option of the radio group. -/
def radioPay : JVal := .obj [("choices", .obj [("g", .str "Blue")])]

/-- Concrete scenario: three checkbox inputs forming one checkbox group. -/
def cb1 : Elem := ⟨1, "input", some "checkbox", none, none, false, false, none, "", "", none, none, none, none⟩

/-- Second checkbox. -/
def cb2 : Elem := ⟨2, "input", some "checkbox", none, none, false, false, none, "", "", none, none, none, none⟩

/-- Third checkbox. -/
def cb3 : Elem := ⟨3, "input", some "checkbox", none, none, false, false, none, "", "", none, none, none, none⟩

/-- The document of the checkbox scenario. -/
def cbDoc : Doc := ⟨[cb1, cb2, cb3], []⟩

/-- The group record of the checkbox scenario. -/
def cbGroup : ChoiceGroup := ⟨"checkbox", "Q", [⟨1, "o1", "A"⟩, ⟨2, "o2", "B"⟩, ⟨3, "o3", "C"⟩]⟩

/-- The index of the checkbox scenario. -/
def cbIdx : FieldIndex := ⟨[], [], [], [], [], [("g", cbGroup)], []⟩

/-- The multi-select values of the checkbox scenario. -/
def cbVals : List JVal := [.str "A", .str "B", .str "C"]

/-- The answer payload of the checkbox scenario. -/
def cbPay : JVal := .obj [("choices", .obj [("g", .arr cbVals)])]

/-- A fault oracle under which dispatching `input` on node 2 raises — the
"unexpected error while applying a checked-state change" of the spec. -/
def cbFault : Act → Bool := fun a => a == Act.dispatch 2 "input"

/-- Concrete scenario: a text input (node 1) whose normalised label is
`choices`, and a named radio (node 2), for the legacy flat-map claim. -/
def mixText : Elem := ⟨1, "input", some "text", none, none, false, false, none, "", "", none, none, none, none⟩

/-- The named radio of the flat-map scenario. -/
def mixRadio : Elem := ⟨2, "input", some "radio", none, some "color", false, false, none, "", "", none, none, none, none⟩

/-- The document of the flat-map scenario. -/
def mixDoc : Doc := ⟨[mixText, mixRadio], []⟩

/-- The index of the flat-map scenario: the text control is indexed under
the normalised label `choices`; the radio forms group `g1`. -/
def mixIdx : FieldIndex :=
  ⟨[], [("choices", 1)], [], [], [], [("g1", ⟨"radio", "Q", [⟨2, "opt2", "Red"⟩]⟩)], []⟩

/-- An object payload carrying only a `choices` map and no `fields` key. -/
def mixPay : JVal := .obj [("choices", .obj [("g1", .str "Red")])]

/-- Concrete scenario: a text input registered only under placeholder
`email`, for the ordered-list resolution claim. -/
def phElem : Elem := ⟨7, "input", some "text", none, none, false, false, none, "", "", none, none, none, none⟩

/-- The document of the placeholder scenario. -/
def phDoc : Doc := ⟨[phElem], []⟩

/-- The index of the placeholder scenario: only `byPlaceholder` is populated. -/
def phIdx : FieldIndex := ⟨[], [], [], [], [("email", 7)], [], []⟩

/-- An ordered-list item whose only index-matching datum is its
`placeholder` field. -/
def phItem : JVal := .obj [("label", .str "zzz"), ("placeholder", .str "email"), ("answer", .str "x")]

/-- A contenteditable node (neither input nor textarea). -/
def ceElem : Elem := ⟨5, "div", none, none, none, true, false, none, "", "", none, none, none, none⟩

/-- An empty document. -/
def emptyDoc : Doc := ⟨[], []⟩

/-- An empty field index. -/
def emptyIdx : FieldIndex := ⟨[], [], [], [], [], [], []⟩

/-- Concrete scenario: two native radio inputs sharing `name="grp"`, the
first pre-checked — the common case where exclusivity does hold. -/
def named1 : Elem := ⟨1, "input", some "radio", none, some "grp", false, true, none, "", "", none, none, none, none⟩

/-- Second named radio, initially unchecked. -/
def named2 : Elem := ⟨2, "input", some "radio", none, some "grp", false, false, none, "", "", none, none, none, none⟩

/-- The document of the named-radio scenario. -/
def namedDoc : Doc := ⟨[named1, named2], []⟩

/-- Decidable equality for the `Except Unit` outcomes of the embedding. -/
instance {α : Type} [DecidableEq α] : DecidableEq (Except Unit α) := fun a b =>
  match a, b with
  | .ok x, .ok y =>
    if h : x = y then .isTrue (by rw [h]) else .isFalse (by intro hc; injection hc; contradiction)
  | .error x, .error y => .isTrue (by cases x; cases y; rfl)
  | .ok _, .error _ => .isFalse (by intro hc; injection hc)
  | .error _, .ok _ => .isFalse (by intro hc; injection hc)

/-! ## General lemmas about the embedding -/

/-- Every tier score is non-negative. -/
theorem scoreOf_nonneg (o : SOpt) (e r n : String) : 0 ≤ scoreOf o e r n := by
  unfold scoreOf
  split_ifs <;> norm_num

/-- The scoring loop never loses a non-null best candidate. -/
theorem selLoop_isSome_of_some (val : String) (rs : Bool) :
    ∀ (l : List SOpt) (o : SOpt) (s : Int), (selLoop val rs l (some o) s).isSome := by
  intro l
  induction l with
  | nil => intro o s; rfl
  | cons x rest ih =>
    intro o s
    unfold selLoop
    split_ifs <;> simp [ih]

/-- Started on a non-empty list with `bestScore = -1`, the scoring loop
returns some option: the first option's score is at least 0, so it always
beats the initial `-1`. -/
theorem selLoop_start_isSome (val : String) (rs : Bool) (o : SOpt) (rest : List SOpt) :
    (selLoop val rs (o :: rest) none (-1)).isSome := by
  unfold selLoop
  split_ifs with h1 h2 h3
  · rfl
  · rfl
  · exact selLoop_isSome_of_some val rs rest o _
  · exact absurd (lt_of_lt_of_le (by norm_num) (scoreOf_nonneg o _ _ _)) h3

/-- If some option passes the loop's exact-id-or-exact-label test, the loop
returns the first such option, whatever candidate it is carrying. -/
theorem selLoop_finds (val : String) :
    ∀ (l : List SOpt) (best : Option SOpt) (s : Int) (o : SOpt),
      l.find? (fun x => (x.oid == val) || (jsTrim x.label == jsTrim val)) = some o →
      selLoop val true l best s = some o := by
  intro l
  induction l with
  | nil => intro best s o h; simp [List.find?] at h
  | cons x rest ih =>
    intro best s o h
    rw [List.find?_cons] at h
    cases hb : ((x.oid == val) || (jsTrim x.label == jsTrim val)) with
    | true =>
      simp only [hb] at h
      injection h with h; subst h
      have hb2 : x.oid = val ∨ jsTrim x.label = jsTrim val := by
        simpa using hb
      unfold selLoop
      cases hb2 with
      | inl hid => rw [if_pos ⟨rfl, hid⟩]
      | inr hlab =>
        by_cases hid : x.oid = val
        · rw [if_pos ⟨rfl, hid⟩]
        · rw [if_neg (by simp [hid]), if_pos hlab]
    | false =>
      simp only [hb] at h
      have hb2 : ¬x.oid = val ∧ ¬jsTrim x.label = jsTrim val := by
        simpa using hb
      unfold selLoop
      rw [if_neg (by simp [hb2.1]), if_neg hb2.2]
      split_ifs <;> exact ih _ _ o h

/-- The submission epilogue on an untouched state returns
`{ filled: 0, submitted: false }` and the unchanged document. -/
theorem finishFill_empty (f : Act → Bool) (a s : Bool) (d : Doc) :
    finishFill f a s ⟨d, 0, []⟩ = (⟨0, false⟩, d) := by
  unfold finishFill
  split_ifs <;> rfl

/-- Items that all miss resolution leave the fill state untouched. -/
theorem procItems_miss (f : Act → Bool) (skip : Bool) (idx : FieldIndex) :
    ∀ (items : List JVal) (st : FillSt),
      (∀ it ∈ items, resolveItemChain st.doc idx it = none) →
      procItems f skip idx st items = .ok st := by
  intro items
  induction items with
  | nil => intro st _; rfl
  | cons it rest ih =>
    intro st h
    unfold procItems
    by_cases ht : jtruthy it = true
    · rw [if_pos ht, h it (List.mem_cons_self it rest)]
      exact ih st (fun x hx => h x (List.mem_cons_of_mem it hx))
    · rw [if_neg ht]
      exact ih st (fun x hx => h x (List.mem_cons_of_mem it hx))

/-- Choices entries that all miss group lookup leave the state untouched. -/
theorem procChoiceEntries_miss (f : Act → Bool) (skip : Bool) (idx : FieldIndex) :
    ∀ (entries : List (String × JVal)) (st : FillSt),
      (∀ p ∈ entries, groupLookup idx p.1 = none) →
      procChoiceEntries f skip idx st entries = .ok st := by
  intro entries
  induction entries with
  | nil => intro st _; rfl
  | cons p rest ih =>
    intro st h
    obtain ⟨gkey, value⟩ := p
    unfold procChoiceEntries
    rw [h (gkey, value) (List.mem_cons_self _ rest)]
    exact ih st (fun x hx => h x (List.mem_cons_of_mem _ hx))

/-- Flat entries that all miss key resolution leave the state untouched. -/
theorem procFlat_miss (f : Act → Bool) (skip : Bool) (idx : FieldIndex) :
    ∀ (entries : List (String × JVal)) (st : FillSt),
      (∀ p ∈ entries, resolveKey idx p.1 = none) →
      procFlat f skip idx st entries = .ok st := by
  intro entries
  induction entries with
  | nil => intro st _; rfl
  | cons p rest ih =>
    intro st h
    obtain ⟨key, value⟩ := p
    unfold procFlat
    rw [h (key, value) (List.mem_cons_self _ rest)]
    exact ih st (fun x hx => h x (List.mem_cons_of_mem _ hx))

/-- Without faults, running actions is just applying them. -/
theorem runActs_noFaults (as : List Act) : ∀ (d : Doc),
    runActs noFaults d as = .ok (applyActsDoc d as) := by
  induction as with
  | nil => intro d; rfl
  | cons a as ih =>
    intro d
    unfold runActs applyActsDoc
    rw [if_neg (by simp [noFaults])]
    exact ih (applyActDoc d a)

/-- Applying a list of actions maps each node through the element-level
fold. -/
theorem applyActsDoc_elems (as : List Act) : ∀ (d : Doc),
    (applyActsDoc d as).elems = d.elems.map (fun e => List.foldl applyActElem e as) := by
  induction as with
  | nil => intro d; simp [applyActsDoc]
  | cons a as ih =>
    intro d
    unfold applyActsDoc
    rw [ih]
    unfold applyActDoc
    simp [List.map_map]

/-- One action changes nothing but the checked / aria-checked / value / text
of its target: identity and static attributes survive. -/
theorem applyActElem_fields (e : Elem) (a : Act) :
    (applyActElem e a).eid = e.eid ∧ (applyActElem e a).tag = e.tag ∧
    (applyActElem e a).typeAttr = e.typeAttr ∧ (applyActElem e a).nameAttr = e.nameAttr ∧
    (applyActElem e a).role = e.role := by
  cases a <;> simp only [applyActElem] <;> (try split) <;> simp

/-- Folded version of `applyActElem_fields`. -/
theorem foldl_fields (as : List Act) : ∀ (e : Elem),
    (List.foldl applyActElem e as).eid = e.eid ∧
    (List.foldl applyActElem e as).tag = e.tag ∧
    (List.foldl applyActElem e as).typeAttr = e.typeAttr ∧
    (List.foldl applyActElem e as).nameAttr = e.nameAttr ∧
    (List.foldl applyActElem e as).role = e.role := by
  induction as with
  | nil => intro e; exact ⟨rfl, rfl, rfl, rfl, rfl⟩
  | cons a as ih =>
    intro e
    rw [List.foldl_cons]
    obtain ⟨h1, h2, h3, h4, h5⟩ := ih (applyActElem e a)
    obtain ⟨g1, g2, g3, g4, g5⟩ := applyActElem_fields e a
    exact ⟨h1.trans g1, h2.trans g2, h3.trans g3, h4.trans g4, h5.trans g5⟩

/-- A node that is unchecked stays unchecked through any action list that
never sets its checked state to true. -/
theorem foldl_checked_stays_false (as : List Act) : ∀ (e : Elem),
    e.checked = false →
    (∀ a ∈ as, a ≠ Act.setChecked e.eid true) →
    (List.foldl applyActElem e as).checked = false := by
  induction as with
  | nil => intro e h0 _; exact h0
  | cons a as ih =>
    intro e h0 h
    rw [List.foldl_cons]
    apply ih (applyActElem e a)
    · cases a with
      | setChecked i b =>
        simp only [applyActElem]
        by_cases hi : e.eid = i
        · rw [if_pos hi]
          cases b with
          | true => exact absurd (by rw [hi]) (h (.setChecked i true) (List.mem_cons_self _ _))
          | false => rfl
        · rw [if_neg hi]; exact h0
      | setAria i s =>
        simp only [applyActElem]; split <;> simpa using h0
      | setValue i s =>
        simp only [applyActElem]; split <;> simpa using h0
      | setText i s =>
        simp only [applyActElem]; split <;> simpa using h0
      | dispatch i s => exact h0
      | submit i => exact h0
    · intro x hx
      rw [(applyActElem_fields e a).1]
      exact h x (List.mem_cons_of_mem a hx)

/-- A node's checked state is untouched by actions that never target it. -/
theorem foldl_checked_untouched (as : List Act) : ∀ (e : Elem),
    (∀ a ∈ as, ∀ b, a ≠ Act.setChecked e.eid b) →
    (List.foldl applyActElem e as).checked = e.checked := by
  induction as with
  | nil => intro e _; rfl
  | cons a as ih =>
    intro e h
    rw [List.foldl_cons]
    have hstep : (applyActElem e a).checked = e.checked := by
      cases a with
      | setChecked i b =>
        simp only [applyActElem]
        by_cases hi : e.eid = i
        · exact absurd (by rw [hi]) (h (.setChecked i b) (List.mem_cons_self _ _) b)
        · rw [if_neg hi]
      | setAria i s => simp only [applyActElem]; split <;> rfl
      | setValue i s => simp only [applyActElem]; split <;> rfl
      | setText i s => simp only [applyActElem]; split <;> rfl
      | dispatch i s => rfl
      | submit i => rfl
    rw [← hstep]
    apply ih (applyActElem e a)
    intro x hx b
    rw [(applyActElem_fields e a).1]
    exact h x (List.mem_cons_of_mem a hx) b

/-- A sibling-clearing action never sets a checked state to `true`. -/
theorem clearActOf_ne (x : Elem) (j : Nat) : clearActOf x ≠ Act.setChecked j true := by
  unfold clearActOf
  split <;> simp

/-- The tail of the native branch after the target's `checked := true`
contains only notification dispatches, never a checked-state write. -/
theorem nativeTail_no_setChecked (i : Nat) (wc sup : Bool) :
    ∀ a ∈ (Act.dispatch i "input" ::
        (if sup then []
         else if wc then (if sup then [] else [Act.dispatch i "change"])
         else [Act.dispatch i "change"])),
      ∀ (j : Nat) (b : Bool), a ≠ Act.setChecked j b := by
  intro a ha j b
  rcases List.mem_cons.mp ha with h | h
  · subst h; simp
  · split_ifs at h with h1 h2
    · simp at h
    · simp at h; subst h; simp
    · simp at h; subst h; simp

/-! ## Claim C1 — score-0 options and `selectBy` -/

/-- Claim C1 counterexample: the claim states that `selectBy` never returns
an option whose tier score is 0 and that a value with no match signal is
dropped.  On the single-option group `[Red]` and the value `zzz`, every
score is 0 (no exact id/label match, no tie-break), yet `selectBy` returns
the `Red` option — because `bestScore` starts at `-1` and `0 > -1`. -/
theorem c1_counterexample :
    selectByStr [⟨"opt1", "Red", "", 1⟩] "zzz" = some ⟨"opt1", "Red", "", 1⟩ ∧
    scoreOf ⟨"opt1", "Red", "", 1⟩ (jsTrim "zzz") (keepPunctLower "zzz") (normalizeKey "zzz") = 0 := by
  decide

/-- Claim C1, amended: `selectBy` never drops a value for lack of match
signal — on every non-empty option list and every string value it returns
some option (the score-0 fallback selects the first option encountered,
since the initial best score is `-1`). -/
theorem c1_amended (opts : List SOpt) (val : String) (h : opts ≠ []) :
    (selectByStr opts val).isSome := by
  unfold selectByStr selectByCore
  cases opts with
  | nil => exact absurd rfl h
  | cons o rest =>
    split_ifs with hlen
    · cases hf : ((csCandidates (o :: rest) val).find? (fun x => jsTrim x.label == jsTrim val)) with
      | some x => simp [hf]
      | none =>
        simp only [hf]
        cases hg : ((csCandidates (o :: rest) val).find? (fun x => startsUpper (jsTrim x.label))) with
        | some x => simp [hg]
        | none => simp only [hg]; exact selLoop_start_isSome val true o rest
    · exact selLoop_start_isSome val true o rest

/-- Claim C1 witness: `c1_amended` applied to a concrete one-option group
and an unrelated value. -/
theorem c1_witness :
    ([⟨"a", "x", "", 1⟩] : List SOpt) ≠ [] ∧
    (selectByStr [⟨"a", "x", "", 1⟩] "q").isSome :=
  ⟨by decide, c1_amended [⟨"a", "x", "", 1⟩] "q" (by decide)⟩

/-! ## Claim C2 — exact-match priority in `selectBy` -/

/-- Claim C2 counterexample: the claim states that an option whose
identifier equals the raw value is returned before the case-sensitive
tie-break is consulted.  With options `[{id: v, label: zzz}, {label: V},
{label: v}]` and value `v`, the tie-break (which runs first in the source)
fires on the two case-insensitively equal labels and returns the third
option, not the first option whose identifier is exactly `v`. -/
theorem c2_counterexample :
    (([⟨"v", "zzz", "", 1⟩, ⟨"b", "V", "", 2⟩, ⟨"c", "v", "", 3⟩] : List SOpt).head? =
      some ⟨"v", "zzz", "", 1⟩) ∧
    (⟨"v", "zzz", "", 1⟩ : SOpt).oid = "v" ∧
    selectByStr [⟨"v", "zzz", "", 1⟩, ⟨"b", "V", "", 2⟩, ⟨"c", "v", "", 3⟩] "v" =
      some ⟨"c", "v", "", 3⟩ ∧
    (⟨"c", "v", "", 3⟩ : SOpt).oid ≠ "v" := by
  decide

/-- Claim C2, amended: the exact-identifier and exact-label checks
short-circuit inside the scoring loop — after the case-sensitive tie-break,
not before it.  When the tie-break does not fire (fewer than two options
whose labels equal the value case-insensitively), the first option whose
identifier equals the raw value or whose exact label text equals the
trimmed raw value is returned immediately, before any fuzzy score is used;
in particular, for the option list `["Yes", "yes, please"]` and value
`"Yes"`, the matcher returns the option labeled `"Yes"`. -/
theorem c2_amended :
    (∀ (opts : List SOpt) (val : String) (o : SOpt),
      (csCandidates opts val).length < 2 →
      opts.find? (fun x => (x.oid == val) || (jsTrim x.label == jsTrim val)) = some o →
      selectByStr opts val = some o) ∧
    selectByStr [⟨"a", "Yes", "", 1⟩, ⟨"b", "yes, please", "", 2⟩] "Yes" =
      some ⟨"a", "Yes", "", 1⟩ := by
  constructor
  · intro opts val o hlen hfind
    unfold selectByStr selectByCore
    rw [if_neg (by omega)]
    exact selLoop_finds val opts none (-1) o hfind
  · decide

/-- Claim C2 witness: `c2_amended` applied to a concrete single-option
list whose label equals the value exactly. -/
theorem c2_witness :
    ((csCandidates [⟨"idx", "Hello", "", 9⟩] "Hello").length < 2 ∧
      ([⟨"idx", "Hello", "", 9⟩] : List SOpt).find?
        (fun x => (x.oid == "Hello") || (jsTrim x.label == jsTrim "Hello")) =
        some ⟨"idx", "Hello", "", 9⟩) ∧
    selectByStr [⟨"idx", "Hello", "", 9⟩] "Hello" = some ⟨"idx", "Hello", "", 9⟩ :=
  ⟨⟨by decide, by decide⟩,
    c2_amended.1 [⟨"idx", "Hello", "", 9⟩] "Hello" ⟨"idx", "Hello", "", 9⟩
      (by decide) (by decide)⟩

/-! ## Claim C3 — scalar answer resolution order -/

/-- Claim C3 counterexample: the claim states that in each payload shape the
resolution chain ends with the normalized placeholder, first hit winning.
In the ordered-list shape no placeholder lookup exists: an item whose
`placeholder` datum matches a control indexed under that placeholder is
nevertheless dropped (`filled: 0`), with the document untouched. -/
theorem c3_counterexample :
    jget phItem "placeholder" = some (.str "email") ∧
    alookup phIdx.byPlaceholder (normalizeKey "email") = some 7 ∧
    fillAnswers noFaults false false phDoc phIdx (.arr [phItem]) = .ok (⟨0, false⟩, phDoc) := by
  refine ⟨rfl, by decide, by decide⟩

/-- Claim C3, amended: in the structured-object and legacy flat-map shapes a
key is resolved via identifier → normalized label → normalized name →
normalized htmlId → normalized placeholder, first hit winning, and a key
resolving nowhere is dropped with no error; in the ordered-list shape the
chain is identifier → explicit selector → normalized label → normalized
name → normalized htmlId, and the placeholder index is never consulted
(the resolution is invariant under replacing it), while the identifier
still takes first priority. -/
theorem c3_amended :
    (∀ (idx : FieldIndex) (key : String) (e : Nat),
      alookup idx.byId key = some e → resolveKey idx key = some e) ∧
    (∀ (idx : FieldIndex) (key : String) (e : Nat),
      alookup idx.byId key = none → alookup idx.byLabel (normalizeKey key) = some e →
      resolveKey idx key = some e) ∧
    (∀ (idx : FieldIndex) (key : String) (e : Nat),
      alookup idx.byId key = none → alookup idx.byLabel (normalizeKey key) = none →
      alookup idx.byName (normalizeKey key) = some e → resolveKey idx key = some e) ∧
    (∀ (idx : FieldIndex) (key : String) (e : Nat),
      alookup idx.byId key = none → alookup idx.byLabel (normalizeKey key) = none →
      alookup idx.byName (normalizeKey key) = none →
      alookup idx.byHtmlId (normalizeKey key) = some e → resolveKey idx key = some e) ∧
    (∀ (idx : FieldIndex) (key : String) (e : Nat),
      alookup idx.byId key = none → alookup idx.byLabel (normalizeKey key) = none →
      alookup idx.byName (normalizeKey key) = none →
      alookup idx.byHtmlId (normalizeKey key) = none →
      alookup idx.byPlaceholder (normalizeKey key) = some e → resolveKey idx key = some e) ∧
    (∀ (idx : FieldIndex) (key : String),
      alookup idx.byId key = none → alookup idx.byLabel (normalizeKey key) = none →
      alookup idx.byName (normalizeKey key) = none →
      alookup idx.byHtmlId (normalizeKey key) = none →
      alookup idx.byPlaceholder (normalizeKey key) = none → resolveKey idx key = none) ∧
    (∀ (d : Doc) (idx : FieldIndex) (item : JVal) (pl : List (String × Nat)),
      resolveItemChain d { idx with byPlaceholder := pl } item = resolveItemChain d idx item) ∧
    (∀ (d : Doc) (idx : FieldIndex) (item : JVal) (s : String) (e : Nat),
      jget item "id" = some (.str s) → s ≠ "" → alookup idx.byId s = some e →
      resolveItemChain d idx item = some e) ∧
    (∀ (f : Act → Bool) (autoSub skip : Bool) (d : Doc) (idx : FieldIndex)
        (key : String) (v : String),
      resolveKey idx key = none →
      fillAnswers f autoSub skip d idx (.obj [(key, .str v)]) = .ok (⟨0, false⟩, d)) := by
  refine ⟨?_, ?_, ?_, ?_, ?_, ?_, ?_, ?_, ?_⟩
  · intro idx key e h1; unfold resolveKey; rw [h1]
  · intro idx key e h1 h2; unfold resolveKey; rw [h1, h2]
  · intro idx key e h1 h2 h3; unfold resolveKey; rw [h1, h2, h3]
  · intro idx key e h1 h2 h3 h4; unfold resolveKey; rw [h1, h2, h3, h4]
  · intro idx key e h1 h2 h3 h4 h5; unfold resolveKey; rw [h1, h2, h3, h4, h5]
  · intro idx key h1 h2 h3 h4 h5; unfold resolveKey; rw [h1, h2, h3, h4, h5]
  · intro d idx item pl; rfl
  · intro d idx item s e h1 h2 h3
    unfold resolveItemChain
    rw [h1]
    have hj : jorv (some (JVal.str s)) (jget item "fieldId") = some (JVal.str s) := by
      unfold jorv jtruthy
      simp [h2]
    rw [hj]
    have ht : (some (JVal.str s)).elim false jtruthy = true := by
      simp [jtruthy, h2]
    rw [if_pos ht]
    simp [h3]
  · intro f autoSub skip d idx key v h
    by_cases hkc : key = "choices" <;> by_cases hkf : key = "fields"
    · subst hkc; exact absurd hkf (by decide)
    · subst hkc
      simp [fillAnswers, jget, jtruthy, jIsObjLike, procFlat, h, finishFill_empty]
    · subst hkf
      simp [fillAnswers, jget, jtruthy, jIsObjLike, procFlat, h, finishFill_empty]
    · simp [fillAnswers, jget, jtruthy, jIsObjLike, procFlat, h, hkc, hkf, finishFill_empty]

/-- Claim C3 witness: the drop-with-no-error conjunct of `c3_amended`
applied to an unknown key over the empty index. -/
theorem c3_witness :
    resolveKey emptyIdx "ghost" = none ∧
    fillAnswers noFaults true false emptyDoc emptyIdx (.obj [("ghost", .str "x")]) =
      .ok (⟨0, false⟩, emptyDoc) :=
  ⟨by decide,
    c3_amended.2.2.2.2.2.2.2.2 noFaults true false emptyDoc emptyIdx "ghost" "x" (by decide)⟩

/-! ## Claim C4 — radio-group exclusivity -/

/-- Claim C4 counterexample: the claim states that after applying a single
string answer to a radio group, exactly one option is selected and all
siblings sharing the same name or the same enclosing exclusive-group
container are cleared.  For a radio group of two unnamed radios outside any
`role='radiogroup'` (grouped by a shared heading, as `collectSchema`
produces), selecting the second clears nothing: both options end up
checked. -/
theorem c4_counterexample :
    radioIdx.byGroup = [("g", ⟨"radio", "Q", [⟨1, "o1", "Red"⟩, ⟨2, "o2", "Blue"⟩]⟩)] ∧
    radioDoc.elems.length = 2 ∧
    resFilled (fillAnswers noFaults false false radioDoc radioIdx radioPay) = some 1 ∧
    resCheckedCount (fillAnswers noFaults false false radioDoc radioIdx radioPay) = some 2 := by
  decide

/-- Claim C4, amended: the clearing scope is what `ensureChecked` computes —
when the target has a truthy `name`, exactly the native `input[type=radio]`
nodes sharing that name (and only those) are cleared; each such sibling's
clear action precedes the target's `checked := true` in the mutation
sequence; and after a fault-free run, among the native same-name radios
without a `role` attribute exactly the target is checked.  (Unnamed radios
outside a radiogroup clear nothing, as the counterexample shows.) -/
theorem c4_amended (d : Doc) (el : Elem) (n : String) (sup : Bool)
    (hname : el.nameAttr = some n) (hne : n ≠ "") (hrole : el.role = none) :
    (∃ cl rest,
       ensureCheckedActs d el true sup = cl ++ Act.setChecked el.eid true :: rest ∧
       ∀ e ∈ d.elems, e.tag = "input" → e.typeAttr = some "radio" → e.nameAttr = some n →
         e.eid ≠ el.eid → clearActOf e ∈ cl) ∧
    (runActs noFaults d (ensureCheckedActs d el true sup) =
       .ok (applyActsDoc d (ensureCheckedActs d el true sup)) ∧
     ∀ e ∈ (applyActsDoc d (ensureCheckedActs d el true sup)).elems,
       e.tag = "input" → e.typeAttr = some "radio" → e.nameAttr = some n → e.role = none →
       (e.checked = true ↔ e.eid = el.eid)) := by
  have hgroup : radioGroupNodes d el = some (qsaRadioName d n) := by
    unfold radioGroupNodes nameTruthy
    rw [hname]
    simp [hne]
  have hclears : clearsOf d el =
      ((qsaRadioName d n).filter (fun x => x.eid != el.eid)).map clearActOf := by
    unfold clearsOf
    rw [hgroup]
  have hacts0 : ensureCheckedActs d el true sup =
      ((qsaRadioName d n).filter (fun x => x.eid != el.eid)).map clearActOf ++
        nativeBranchActs el.eid (!el.checked) sup := by
    unfold ensureCheckedActs
    rw [if_pos (Or.inr rfl), if_neg (by simp [hrole]), hclears]
  have hmemclear : ∀ e ∈ d.elems, e.tag = "input" → e.typeAttr = some "radio" →
      e.nameAttr = some n → e.eid ≠ el.eid →
      clearActOf e ∈ ((qsaRadioName d n).filter (fun x => x.eid != el.eid)).map clearActOf := by
    intro e he htag htype hnm hne2
    apply List.mem_map_of_mem
    apply List.mem_filter.mpr
    refine ⟨?_, by simp [hne2]⟩
    unfold qsaRadioName
    exact List.mem_filter.mpr ⟨he, by simp [htag, htype, hnm]⟩
  have hclear_mem_shape : ∀ a ∈ ((qsaRadioName d n).filter (fun x => x.eid != el.eid)).map clearActOf,
      ∀ (j : Nat), a ≠ Act.setChecked j true := by
    intro a ha j
    obtain ⟨x, _, rfl⟩ := List.mem_map.mp ha
    exact clearActOf_ne x j
  constructor
  · exact ⟨((qsaRadioName d n).filter (fun x => x.eid != el.eid)).map clearActOf,
      Act.dispatch el.eid "input" ::
        (if sup then []
         else if !el.checked then (if sup then [] else [Act.dispatch el.eid "change"])
         else [Act.dispatch el.eid "change"]),
      by rw [hacts0]; rfl, hmemclear⟩
  · refine ⟨runActs_noFaults _ _, ?_⟩
    intro e' he' htag htype hnm hrole2
    rw [applyActsDoc_elems] at he'
    obtain ⟨e, he, rfl⟩ := List.mem_map.mp he'
    obtain ⟨hfe, hft, hfy, hfn, hfr⟩ := foldl_fields (ensureCheckedActs d el true sup) e
    rw [hft] at htag
    rw [hfy] at htype
    rw [hfn] at hnm
    rw [hfr] at hrole2
    rw [hfe]
    by_cases heq : e.eid = el.eid
    · refine ⟨fun _ => heq, fun _ => ?_⟩
      rw [hacts0, List.foldl_append]
      have hmid_eid : (List.foldl applyActElem e
          (((qsaRadioName d n).filter (fun x => x.eid != el.eid)).map clearActOf)).eid = e.eid :=
        (foldl_fields _ e).1
      show (List.foldl applyActElem _
        (Act.setChecked el.eid true :: Act.dispatch el.eid "input" :: _)).checked = true
      rw [List.foldl_cons]
      have hset : (applyActElem (List.foldl applyActElem e
          (((qsaRadioName d n).filter (fun x => x.eid != el.eid)).map clearActOf))
          (Act.setChecked el.eid true)).checked = true := by
        simp only [applyActElem]
        rw [if_pos (by rw [hmid_eid, heq])]
      have hset_eid : (applyActElem (List.foldl applyActElem e
          (((qsaRadioName d n).filter (fun x => x.eid != el.eid)).map clearActOf))
          (Act.setChecked el.eid true)).eid = e.eid := by
        rw [(applyActElem_fields _ _).1, hmid_eid]
      rw [foldl_checked_untouched _ _ ?untouched]
      · exact hset
      case untouched =>
        intro a ha b
        rw [hset_eid]
        exact nativeTail_no_setChecked el.eid (!el.checked) sup a ha e.eid b
    · refine ⟨fun hch => absurd ?_ (by simpa [hch] using heq), fun hcon => absurd hcon heq⟩
      exact absurd hch (by
        have hce : clearActOf e = Act.setChecked e.eid false := by
          unfold clearActOf
          rw [if_neg (by simp [hrole2])]
        have hmem : clearActOf e ∈
            ((qsaRadioName d n).filter (fun x => x.eid != el.eid)).map clearActOf :=
          hmemclear e he htag htype hnm heq
        obtain ⟨l1, l2, hsplit⟩ := List.append_of_mem hmem
        have hfalse : (List.foldl applyActElem e (ensureCheckedActs d el true sup)).checked = false := by
          rw [hacts0, hsplit, hce]
          rw [List.append_assoc, List.cons_append]
          rw [List.foldl_append, List.foldl_cons]
          have hmid1_eid : (List.foldl applyActElem e l1).eid = e.eid := (foldl_fields l1 e).1
          have hupd : (applyActElem (List.foldl applyActElem e l1)
              (Act.setChecked e.eid false)).checked = false := by
            simp only [applyActElem]
            rw [if_pos hmid1_eid]
          have hupd_eid : (applyActElem (List.foldl applyActElem e l1)
              (Act.setChecked e.eid false)).eid = e.eid := by
            rw [(applyActElem_fields _ _).1, hmid1_eid]
          apply foldl_checked_stays_false _ _ hupd
          intro a ha
          rw [hupd_eid]
          rcases List.mem_append.mp ha with h | h
          · have : a ∈ ((qsaRadioName d n).filter (fun x => x.eid != el.eid)).map clearActOf := by
              rw [hsplit, hce]
              exact List.mem_append.mpr (Or.inr (List.mem_cons_of_mem _ h))
            exact hclear_mem_shape a this e.eid
          · unfold nativeBranchActs at h
            rcases List.mem_cons.mp h with h | h
            · subst h
              intro hcon
              injection hcon with hj hb
              exact heq hj.symm
            · exact nativeTail_no_setChecked el.eid (!el.checked) sup a h e.eid true
        simp [hfalse])

/-- Claim C4 witness: `c4_amended` applied to two concrete named radios. -/
theorem c4_witness :
    (named2.nameAttr = some "grp" ∧ "grp" ≠ "" ∧ named2.role = none) ∧
    ((∃ cl rest,
        ensureCheckedActs namedDoc named2 true false = cl ++ Act.setChecked named2.eid true :: rest ∧
        ∀ e ∈ namedDoc.elems, e.tag = "input" → e.typeAttr = some "radio" →
          e.nameAttr = some "grp" → e.eid ≠ named2.eid → clearActOf e ∈ cl) ∧
     (runActs noFaults namedDoc (ensureCheckedActs namedDoc named2 true false) =
        .ok (applyActsDoc namedDoc (ensureCheckedActs namedDoc named2 true false)) ∧
      ∀ e ∈ (applyActsDoc namedDoc (ensureCheckedActs namedDoc named2 true false)).elems,
        e.tag = "input" → e.typeAttr = some "radio" → e.nameAttr = some "grp" → e.role = none →
        (e.checked = true ↔ e.eid = named2.eid))) :=
  ⟨⟨rfl, by decide, rfl⟩, c4_amended namedDoc named2 "grp" false rfl (by decide) rfl⟩

/-! ## Claim C5 — exceptions during checked-state application -/

/-- Claim C5 counterexample: the claim states that an exception while
applying a checked-state change is caught locally, skipping only that item.
With a fault on the `input` dispatch of the second of three checkbox
values, `fillAnswers` returns the escaped exception (it has no try/catch):
the batch aborts instead of continuing — whereas without the fault all
three values apply. -/
theorem c5_counterexample :
    fillAnswers cbFault false false cbDoc cbIdx cbPay = .error () ∧
    resFilled (fillAnswers noFaults false false cbDoc cbIdx cbPay) = some 3 ∧
    resCheckedCount (fillAnswers noFaults false false cbDoc cbIdx cbPay) = some 3 := by
  decide

/-- Claim C5, amended: an unexpected exception raised while applying a
checked-state change is not caught anywhere inside `fillAnswers`: whenever
the multi-select application loop of a resolved group raises, the whole
fill call propagates the exception (remaining entries are not processed and
no result object is produced); containment, if any, happens only in the
calling strategy's own try/catch. -/
theorem c5_amended (f : Act → Bool) (autoSub skip : Bool) (d : Doc)
    (idx : FieldIndex) (gkey : String) (g : ChoiceGroup) (vals : List JVal)
    (h1 : alookup idx.byGroup gkey = some g)
    (h2 : procChoiceVals f skip g ⟨d, 0, []⟩ vals = .error ()) :
    fillAnswers f autoSub skip d idx (.obj [("choices", .obj [(gkey, .arr vals)])]) =
      .error () := by
  have hg : groupLookup idx gkey = some g := by
    unfold groupLookup
    rw [h1]
  have hentry : procChoiceEntries f skip idx ⟨d, 0, []⟩ [(gkey, JVal.arr vals)] =
      .error () := by
    unfold procChoiceEntries
    rw [hg]
    simp only [h2]
  simp [fillAnswers, jtruthy, jget, jIsObjLike, jentriesOf, hentry]

/-- Claim C5 witness: `c5_amended` applied to the concrete checkbox batch
with a fault on the second item's `input` dispatch. -/
theorem c5_witness :
    (alookup cbIdx.byGroup "g" = some cbGroup ∧
      procChoiceVals cbFault false cbGroup ⟨cbDoc, 0, []⟩ cbVals = .error ()) ∧
    fillAnswers cbFault false false cbDoc cbIdx (.obj [("choices", .obj [("g", .arr cbVals)])]) =
      .error () :=
  ⟨⟨by decide, by decide⟩,
    c5_amended cbFault false false cbDoc cbIdx "g" cbGroup cbVals (by decide) (by decide)⟩

/-! ## Claim C6 — strategy cascade fall-through -/

/-- Claim C6 counterexample: the claim states that failure of any strategy,
including a provider rejection, falls through to the next strategy.  When
the selection and viewport strategies are not applicable and the external
provider rejects the focus-scoped request, the trigger aborts with an error
reply — even though the full-page strategy would have succeeded (second
conjunct): `fillFocusedFieldIfAny` has no try/catch, so its exception
escapes to the handler's top-level catch. -/
theorem c6_counterexample :
    onCaptureAndFillMessage .notApplicable .notApplicable .reject .success =
      Resp.err "Error: AI focused request failed" ∧
    onCaptureAndFillMessage .notApplicable .notApplicable .notApplicable .success =
      Resp.ok ⟨1, false⟩ := by
  decide

/-- Claim C6, amended: the orchestrator tries its four strategies in fixed
order without retry; for the selection-scoped and viewport-scoped
strategies any failure — provider rejection included — falls through to the
next strategy (a rejection is indistinguishable from inapplicability), but
a provider rejection in the focus-scoped strategy aborts the trigger with
an error reply instead of falling through to full-page, and a rejection in
the full-page strategy likewise surfaces as the trigger's error reply. -/
theorem c6_amended :
    (∀ o2 o3 o4, onCaptureAndFillMessage .reject o2 o3 o4 =
        onCaptureAndFillMessage .notApplicable o2 o3 o4) ∧
    (∀ o3 o4, onCaptureAndFillMessage .notApplicable .reject o3 o4 =
        onCaptureAndFillMessage .notApplicable .notApplicable o3 o4) ∧
    (∀ o4, onCaptureAndFillMessage .notApplicable .notApplicable .reject o4 =
        Resp.err "Error: AI focused request failed") ∧
    (∀ o4, onCaptureAndFillMessage .notApplicable .notApplicable .notApplicable o4 =
        (match captureAndFillR o4 with
         | .ok r => Resp.ok r
         | .error e => Resp.err e)) := by
  refine ⟨fun o2 o3 o4 => rfl, fun o3 o4 => rfl, fun o4 => rfl, fun o4 => rfl⟩

/-! ## Claim C7 — unresolvable payload yields an empty, quiet result -/

/-- Claim C7: for every answer payload whose keys all miss the current field
index (array items, choices keys, and `fields`/flat keys alike), the fill
operation returns `{ filled: 0, submitted: false }` with the document
untouched, and raises no exception — under any fault oracle, any
auto-submit setting, and any suppression flag. -/
theorem c7_fill_miss_returns_zero (f : Act → Bool) (autoSub skip : Bool) (d : Doc)
    (idx : FieldIndex) (answers : JVal)
    (h : answersMissAll d idx answers = true) :
    fillAnswers f autoSub skip d idx answers = .ok (⟨0, false⟩, d) := by
  cases answers with
  | nul => rfl
  | str s =>
    by_cases hs : s = ""
    · subst hs; rfl
    · unfold fillAnswers
      rw [if_pos (by simp [jtruthy, hs])]
      rw [finishFill_empty]
  | arr items =>
    unfold answersMissAll at h
    rw [List.all_eq_true] at h
    have hmiss : procItems f skip idx ⟨d, 0, []⟩ items = .ok ⟨d, 0, []⟩ :=
      procItems_miss f skip idx items ⟨d, 0, []⟩
        (fun it hit => Option.isNone_iff_eq_none.mp (h it hit))
    simp [fillAnswers, jtruthy, hmiss, finishFill_empty]
  | obj fs =>
    unfold answersMissAll at h
    rw [Bool.and_eq_true] at h
    obtain ⟨hch, hfl⟩ := h
    have hst1 :
        (match jget (.obj fs) "choices" with
         | some cv => if jIsObjLike cv = true then
             procChoiceEntries f skip idx ⟨d, 0, []⟩ (jentriesOf cv)
           else .ok ⟨d, 0, []⟩
         | none => .ok ⟨d, 0, []⟩) = Except.ok (⟨d, 0, []⟩ : FillSt) := by
      cases hc : jget (JVal.obj fs) "choices" with
      | none => rfl
      | some cv =>
        rw [hc] at hch
        by_cases hobj : jIsObjLike cv = true
        · simp only [hobj, if_true] at hch ⊢
          rw [List.all_eq_true] at hch
          exact procChoiceEntries_miss f skip idx (jentriesOf cv) ⟨d, 0, []⟩
            (fun p hp => Option.isNone_iff_eq_none.mp (hch p hp))
        · simp [hobj]
    have hst2 :
        (match jget (.obj fs) "fields" with
         | some fv => if jIsObjLike fv = true then procFlat f skip idx ⟨d, 0, []⟩ (jentriesOf fv)
                      else procFlat f skip idx ⟨d, 0, []⟩ fs
         | none => procFlat f skip idx ⟨d, 0, []⟩ fs) = Except.ok (⟨d, 0, []⟩ : FillSt) := by
      cases hc : jget (JVal.obj fs) "fields" with
      | none =>
        rw [hc] at hfl
        simp only [] at hfl
        rw [List.all_eq_true] at hfl
        exact procFlat_miss f skip idx fs ⟨d, 0, []⟩
          (fun p hp => Option.isNone_iff_eq_none.mp (hfl p hp))
      | some fv =>
        rw [hc] at hfl
        by_cases hobj : jIsObjLike fv = true
        · simp only [hobj, if_true] at hfl ⊢
          rw [List.all_eq_true] at hfl
          exact procFlat_miss f skip idx (jentriesOf fv) ⟨d, 0, []⟩
            (fun p hp => Option.isNone_iff_eq_none.mp (hfl p hp))
        · simp [hobj] at hfl ⊢
          exact procFlat_miss f skip idx fs ⟨d, 0, []⟩
            (fun p hp => hfl p.1 p.2 hp)
    simp [fillAnswers, jtruthy, hst1, hst2, finishFill_empty]

/-- Claim C7 witness: `c7_fill_miss_returns_zero` applied to a flat payload
whose single key matches nothing in the empty index, with auto-submit on. -/
theorem c7_witness :
    answersMissAll emptyDoc emptyIdx (.obj [("phantom", .str "42")]) = true ∧
    fillAnswers noFaults true false emptyDoc emptyIdx (.obj [("phantom", .str "42")]) =
      .ok (⟨0, false⟩, emptyDoc) :=
  ⟨by decide,
    c7_fill_miss_returns_zero noFaults true false emptyDoc emptyIdx
      (.obj [("phantom", .str "42")]) (by decide)⟩

/-! ## Claim C8 — value application and its notification pair -/

/-- Claim C8 counterexample: the claim states that every text-like or
editable node gets an input notification followed by a change notification,
the change suppressed exactly when silent application is requested.  For a
contenteditable node with suppression NOT requested, the trace contains no
change notification at all. -/
theorem c8_counterexample :
    ceElem.contenteditable = true ∧
    setElementValueActs ceElem (some (.str "hi")) false =
      [.setText 5 "hi", .dispatch 5 "input"] ∧
    Act.dispatch 5 "change" ∉ setElementValueActs ceElem (some (.str "hi")) false := by
  decide

/-- Claim C8, amended: for input and textarea nodes, applying a scalar value
sets the node's value and emits an input notification followed by a change
notification, the change suppressed exactly when the caller requests silent
application; for contenteditable nodes, applying a value sets the text and
emits only the input notification — never a change notification, suppressed
or not. -/
theorem c8_amended (el : Elem) (value : Option JVal) (sup : Bool) :
    ((lowerStr el.tag = "textarea" ∨ lowerStr el.tag = "input") →
      setElementValueActs el value sup =
        [.setValue el.eid (valueToStr value), .dispatch el.eid "input"] ++
          (if sup then [] else [.dispatch el.eid "change"])) ∧
    (¬(lowerStr el.tag = "textarea" ∨ lowerStr el.tag = "input") →
      el.contenteditable = true →
      setElementValueActs el value sup =
        [.setText el.eid (valueToStr value), .dispatch el.eid "input"] ∧
      Act.dispatch el.eid "change" ∉ setElementValueActs el value sup) := by
  constructor
  · intro h
    unfold setElementValueActs
    rw [if_pos h]
  · intro h hce
    unfold setElementValueActs
    rw [if_neg h, if_pos hce]
    refine ⟨rfl, ?_⟩
    intro hmem
    simp [List.mem_cons] at hmem

/-- Claim C8 witness: `c8_amended` applied to the concrete contenteditable
node without suppression. -/
theorem c8_witness :
    (¬(lowerStr ceElem.tag = "textarea" ∨ lowerStr ceElem.tag = "input") ∧
      ceElem.contenteditable = true) ∧
    (setElementValueActs ceElem (some (.str "hello")) false =
        [.setText 5 "hello", .dispatch 5 "input"] ∧
      Act.dispatch 5 "change" ∉ setElementValueActs ceElem (some (.str "hello")) false) :=
  ⟨⟨by decide, rfl⟩, (c8_amended ceElem (some (.str "hello")) false).2 (by decide) rfl⟩

/-! ## Claim C9 — the duplicated change conditional is the simple contract -/

/-- Claim C9: the native-control branch of the checked-state mutator,
despite the source's duplicated conditional around the change dispatch, is
observably equivalent to the simple contract: set checked, always dispatch
the input notification, and dispatch the change notification if and only if
suppression is not requested — for every node identity, every prior checked
state (`willChange`), and every suppression flag. -/
theorem c9_native_branch_equiv : ∀ (eid : Nat) (willChange sup : Bool),
    nativeBranchActs eid willChange sup = specNativeCheckActs eid sup := by
  intro eid wc sup
  cases wc <;> cases sup <;> rfl

/-! ## Claim C10 — the choices key leaks into the legacy flat map -/

/-- Claim C10: when the object payload has no `fields` key, the legacy
flat-map pass iterates every top-level key including `choices` itself and
resolves each against the id/label/name/htmlId/placeholder indexes:
concretely, for a document whose text control (node 1) is indexed under the
normalized label `choices` and whose radio group `g1` contains node 2, the
payload `{choices: {g1: "Red"}}` checks node 2 (the choice answer), and in
addition fills node 1 with the JSON-serialized choices object — two fills
in total. -/
theorem c10_flat_map_choices_key :
    alookup mixIdx.byLabel (normalizeKey "choices") = some 1 ∧
    resFilled (fillAnswers noFaults false false mixDoc mixIdx mixPay) = some 2 ∧
    resCheckedOf (fillAnswers noFaults false false mixDoc mixIdx mixPay) 2 = some true ∧
    resValueOf (fillAnswers noFaults false false mixDoc mixIdx mixPay) 1 =
      some "\x7b\"g1\":\"Red\"\x7d" := by
  decide
